import Mathlib

/-!
# Verification of the DrissionPage browser-skill scripts

Shallow embedding of the algorithmic parts of `scripts/xsearch.py`
(the incremental feed harvester and the report aggregator) and of
`scripts/server.py` (the page digest builder `_build_snapshot`),
together with proofs of the specified properties.

Python strings are modelled as lists of characters, so that Python `len`
is `List.length` and the slice `s[:n]` is `List.take n` (both count code
points, as CPython does).
-/

/-- A Python string: a list of characters. -/
abbrev PyStr := List Char

/-- The character list of a Lean string literal. -/
def pystr (s : String) : PyStr := s.data

/-- Python `a or b` on strings: the empty string is falsy. -/
def pyOr (a b : PyStr) : PyStr := if a = [] then b else a

/-- Python `x or b` where `x : Optional[str]`: `None` and `""` are falsy. -/
def pyOrOpt (a : Option PyStr) (b : PyStr) : PyStr :=
  match a with
  | none => b
  | some s => pyOr s b

/-- Python `str.strip()`: remove whitespace from both ends. -/
def pyStrip (s : PyStr) : PyStr :=
  ((s.dropWhile Char.isWhitespace).reverse.dropWhile Char.isWhitespace).reverse

/-!
## The harvester of `scripts/xsearch.py`

`collect` (xsearch.py:139-231) drives the scroll-and-collect loop; the
navigation, pacing and HTTP plumbing around it are side effects with no
algorithmic content, so the model starts at the loop state
(`all_tweets`, `seen`, `stale`, `rnd`, xsearch.py:202-205) and takes the
per-round result of `extract_tweets` as an input function.
-/

/-- One raw item as produced by `EXTRACT_JS` / consumed by `collect` and
`report`: a JSON object whose fields are read with `dict.get`, hence
optional.  The `metrics` mapping is passed through unmodified and no
claim depends on it, so it is not modelled. -/
structure Tweet where
  displayName : Option PyStr := none
  username : Option PyStr := none
  text : Option PyStr := none
  timestamp : Option PyStr := none
deriving DecidableEq, Repr

/-- Python `t.get(field, default)`. -/
def pyGet (o : Option PyStr) (d : PyStr) : PyStr := o.getD d

/-- A dedup key: `(t.get("username", ""), t.get("text", "")[:120])`
(xsearch.py:214). -/
abbrev DedupKey := PyStr × PyStr

def tweetKey (t : Tweet) : DedupKey :=
  (pyGet t.username [], (pyGet t.text []).take 120)

/-- The loop state of `collect` (xsearch.py:202-205).  `seen` is a Python
set, modelled as a list queried by membership. -/
structure CollectState where
  all_tweets : List Tweet
  seen : List DedupKey
  stale : Nat
  rnd : Nat
deriving DecidableEq, Repr

def initState : CollectState :=
  { all_tweets := [], seen := [], stale := 0, rnd := 0 }

/-- The admission loop `for t in page_tweets: ...` (xsearch.py:213-218):
each item whose key is unseen and has a non-empty body component is added
to `seen` and appended to `all_tweets`.  Returns the updated state and
the round's `new` counter. -/
def admitBatch : CollectState → List Tweet → CollectState × Nat
  | st, [] => (st, 0)
  | st, t :: rest =>
      let key := tweetKey t
      if key ∉ st.seen ∧ key.2 ≠ [] then
        let p :=
          admitBatch
            { st with seen := key :: st.seen, all_tweets := st.all_tweets ++ [t] } rest
        (p.1, p.2 + 1)
      else admitBatch st rest

/-- One round of the while loop (xsearch.py:208-221): increment `rnd`,
admit the extracted batch, then update `stale`
(`stale = stale + 1 if new == 0 else 0`). -/
def roundStep (st : CollectState) (page_tweets : List Tweet) : CollectState × Nat :=
  let p := admitBatch { st with rnd := st.rnd + 1 } page_tweets
  ({ p.1 with stale := if p.2 = 0 then st.stale + 1 else 0 }, p.2)

/-- `MAX_STALE_ROUNDS` (xsearch.py:25). -/
def MAX_STALE_ROUNDS : Nat := 10

/-- The while loop of `collect` (xsearch.py:207-228), with explicit fuel:
`while len(all_tweets) < target and stale < maxStale`, one `roundStep`
per iteration, and the mid-loop `break` once the target is reached.
`ext n` is the batch `extract_tweets()` returns in the round entered with
`rnd = n`.  A `some` result is the state at normal loop exit; `none`
means the fuel ran out, so any `some` result witnesses termination. -/
def collectLoop (ext : Nat → List Tweet) (target maxStale : Nat) :
    Nat → CollectState → Option CollectState
  | 0, _ => none
  | fuel + 1, st =>
      if st.all_tweets.length < target ∧ st.stale < maxStale then
        let st2 := (roundStep st (ext st.rnd)).1
        if target ≤ st2.all_tweets.length then some st2
        else collectLoop ext target maxStale fuel st2
      else some st

/-- The sequence of loop states, one per completed round, ignoring the
exit conditions: `runRounds ext n` is the state after `n` rounds.  The
states the real loop passes through are exactly the first states of this
sequence. -/
def runRounds (ext : Nat → List Tweet) : Nat → CollectState
  | 0 => initState
  | n + 1 => (roundStep (runRounds ext n) (ext (runRounds ext n).rnd)).1

/-!
## `extract_tweets` (xsearch.py:124-132)

The HTTP call is plumbing; the model starts at the value the `/evaluate`
endpoint returned and abstracts `json.loads` as a function `loads`
(`none` models `json.JSONDecodeError`).
-/

/-- The JSON value returned by `/evaluate`: a string to be parsed, an
already-structured list, or anything else. -/
inductive JsValue where
  | str (s : PyStr)
  | list (items : List Tweet)
  | other
deriving DecidableEq

/-- `extract_tweets` (xsearch.py:124-132): parse a string result,
returning `[]` on a decode error; pass a list through; return `[]` for
any other shape. -/
def extract_tweets (loads : PyStr → Option (List Tweet)) : JsValue → List Tweet
  | .str s =>
      match loads s with
      | some items => items
      | none => []
  | .list _items => _items
  | .other => []

/-- The raw extraction results classed as **ExtractionFailure** by the
spec: a string the JSON parser rejects, or a result that is neither a
string nor a list. -/
def extractionFailure (loads : PyStr → Option (List Tweet)) : JsValue → Prop
  | .str s => loads s = none
  | .list _ => False
  | .other => True

/-!
## The report aggregation of `report` (xsearch.py:238-268)

`users` and `daily` are `collections.Counter` objects, i.e. dicts with
insertion-ordered keys; they are modelled as association lists.  The
single `for t in tweets` loop that fills both is split into one fold per
counter (the two updates are independent).
-/

/-- An insertion-ordered counter: association list from key to count. -/
abbrev PyCounter := List (PyStr × Nat)

/-- `c[k] += 1` on a `Counter`: an existing key keeps its position, a new
key is appended at the end (Python dict insertion order). -/
def counterInc : PyCounter → PyStr → PyCounter
  | [], k => [(k, 1)]
  | (k2, n) :: rest, k =>
      if k2 = k then (k2, n + 1) :: rest else (k2, n) :: counterInc rest k

/-- The per-author tally: `users[t.get("username", "unknown")] += 1`
(xsearch.py:240-243). -/
def reportUsers (tweets : List Tweet) : PyCounter :=
  tweets.foldl (fun c t => counterInc c (pyGet t.username (pystr "unknown"))) []

/-- One tweet's contribution to the per-day tally (xsearch.py:244-246):
`daily[ts[:10]] += 1`, skipped when the timestamp is empty (`if ts:`). -/
def dailyStep (c : PyCounter) (t : Tweet) : PyCounter :=
  let ts := pyGet t.timestamp []
  if ts ≠ [] then counterInc c (ts.take 10) else c

/-- The per-day tally of `report`. -/
def reportDaily (tweets : List Tweet) : PyCounter :=
  tweets.foldl dailyStep []

/-- Descending-count order on counter entries. -/
def countDesc (a b : PyStr × Nat) : Prop := b.2 ≤ a.2

instance : DecidableRel countDesc := fun a b => Nat.decLe b.2 a.2

instance : IsTotal (PyStr × Nat) countDesc :=
  ⟨fun a b => (Nat.le_total b.2 a.2).imp id id⟩

instance : IsTrans (PyStr × Nat) countDesc :=
  ⟨fun _ _ _ h1 h2 => Nat.le_trans h2 h1⟩

/-- `Counter.most_common(n)`: CPython documents it as
`sorted(self.items(), key=itemgetter(1), reverse=True)[:n]`, a stable
sort by descending count over the insertion-ordered items, then the
first `n` entries. -/
def mostCommon (c : PyCounter) (n : Nat) : PyCounter :=
  (List.insertionSort countDesc c).take n

/-- The `## Top Users` ranking: `users.most_common(20)` (xsearch.py:267). -/
def reportTopUsers (tweets : List Tweet) : PyCounter :=
  mostCommon (reportUsers tweets) 20

/-!
## The page digest builder of `scripts/server.py`

`_build_snapshot` (server.py:505-588) reads the document through
DrissionPage element handles; an element is modelled by its tag, visible
text and attribute map, and the page by the results of the fixed
selector queries `_build_snapshot` performs, so that the function itself
is a pure computation over that data.
-/

/-- A document element handle: tag name, visible text, attributes
(`attr` returns `None` for a missing attribute). -/
structure Elem where
  tag : PyStr
  text : PyStr
  attrs : List (PyStr × PyStr)
deriving DecidableEq, Repr

def Elem.attr (e : Elem) (nm : PyStr) : Option PyStr :=
  (e.attrs.find? (fun p => p.1 == nm)).map (fun p => p.2)

/-- The document as `_build_snapshot` queries it: one field per selector
query.  `labelFor` is the lookup `page.ele("css:label[for='{id}']")`
performed by `_find_label`; a lookup that raises is `none` (the code
swallows the exception). -/
structure PageModel where
  title : PyStr
  url : PyStr
  headings : List Elem
  nav_links : List Elem
  inputs : List Elem
  buttons : List Elem
  links : List Elem
  mainRegion : Option Elem
  body : Option Elem
  labelFor : PyStr → Option Elem

/-- `_find_label` (server.py:591-604): prefer the text of an associated
`label[for=id]` element, then a non-empty `aria-label`, else `""`. -/
def _find_label (page : PageModel) (element : Elem) : PyStr :=
  let viaId : Option PyStr :=
    match element.attr (pystr "id") with
    | some el_id =>
        if el_id ≠ [] then (page.labelFor el_id).map (fun lbl => pyStrip lbl.text)
        else none
    | none => none
  match viaId with
  | some s => s
  | none =>
      match element.attr (pystr "aria-label") with
      | some aria => if aria ≠ [] then aria else []
      | none => []

/-- The `## Headings` section (server.py:513-520). -/
def headingLines (headings : List Elem) : List PyStr :=
  if headings = [] then []
  else
    pystr "## Headings" ::
      (headings.take 30).filterMap (fun h =>
        let text := pyStrip h.text
        if text ≠ [] then some (pystr "  [" ++ h.tag ++ pystr "] " ++ text) else none)
      ++ [[]]

/-- The `## Navigation` section (server.py:523-531). -/
def navLines (nav_links : List Elem) : List PyStr :=
  if nav_links = [] then []
  else
    pystr "## Navigation" ::
      (nav_links.take 30).filterMap (fun a =>
        let text := pyStrip a.text
        let href := pyOrOpt (a.attr (pystr "href")) []
        if text ≠ [] then
          some (pystr "  [" ++ text ++ pystr "](" ++ href ++ pystr ")")
        else none)
      ++ [[]]

/-- One line of the `## Inputs` section (server.py:538-544). -/
def inputLine (page : PageModel) (inp : Elem) : PyStr :=
  let itype := pyOrOpt (inp.attr (pystr "type")) inp.tag
  let nm := pyOrOpt (inp.attr (pystr "name")) (pyOrOpt (inp.attr (pystr "id")) [])
  let placeholder := pyOrOpt (inp.attr (pystr "placeholder")) []
  let value := pyOrOpt (inp.attr (pystr "value")) []
  let label := _find_label page inp
  let desc := pyOr label (pyOr placeholder (pyOr nm itype))
  pystr "  [" ++ itype ++ pystr "] " ++ desc ++
    (if value ≠ [] then pystr " = \"" ++ value ++ pystr "\"" else [])

/-- The `## Inputs` section (server.py:534-545): every listed input
produces a line (no text filter). -/
def inputLines (page : PageModel) : List PyStr :=
  if page.inputs = [] then []
  else pystr "## Inputs" :: (page.inputs.take 30).map (inputLine page) ++ [[]]

/-- The `## Buttons` section (server.py:548-557): lines deduplicated by
visible label text via a `seen` set. -/
def buttonLines (buttons : List Elem) : List PyStr :=
  if buttons = [] then []
  else
    let step := fun (acc : List PyStr × List PyStr) (btn : Elem) =>
      let text := pyOr (pyStrip btn.text)
        (pyOrOpt (btn.attr (pystr "aria-label")) (pyOrOpt (btn.attr (pystr "value")) []))
      if text ≠ [] ∧ text ∉ acc.2 then
        (acc.1 ++ [pystr "  [" ++ text ++ pystr "]"], text :: acc.2)
      else acc
    pystr "## Buttons" :: ((buttons.take 30).foldl step ([], [])).1 ++ [[]]

/-- The `## Links` section (server.py:560-570). -/
def linkLines (links : List Elem) : List PyStr :=
  if links = [] then []
  else
    let step := fun (acc : List PyStr × List PyStr) (a : Elem) =>
      let text := pyStrip a.text
      let href := pyOrOpt (a.attr (pystr "href")) []
      if text ≠ [] ∧ text ∉ acc.2 then
        (acc.1 ++ [pystr "  [" ++ text ++ pystr "](" ++ href ++ pystr ")"], text :: acc.2)
      else acc
    pystr "## Links" :: ((links.take 40).foldl step ([], [])).1 ++ [[]]

/-- The truncation marker appended by both caps (server.py:581,587). -/
def TRUNCATION_MARKER : PyStr := pystr "\n... (truncated)"

/-- The cap on the main-content text (server.py:580-581):
`text[:max_length // 2] + "\n... (truncated)"` when over half the
budget. -/
def contentBlock (text : PyStr) (max_length : Nat) : PyStr :=
  if text.length > max_length / 2 then text.take (max_length / 2) ++ TRUNCATION_MARKER
  else text

/-- The `## Content` section (server.py:573-583): a semantic main region,
falling back to the document body. -/
def contentLines (page : PageModel) (max_length : Nat) : List PyStr :=
  let mainEl :=
    match page.mainRegion with
    | some m => some m
    | none => page.body
  match mainEl with
  | some m =>
      let text := pyStrip m.text
      if text ≠ [] then [pystr "## Content", contentBlock text max_length, []]
      else []
  | none => []

/-- The assembled `parts` list of `_build_snapshot` (server.py:507-583). -/
def snapshotParts (page : PageModel) (max_length : Nat) : List PyStr :=
  [pystr "Page: " ++ page.title, pystr "URL: " ++ page.url, []]
    ++ headingLines page.headings
    ++ navLines page.nav_links
    ++ inputLines page
    ++ buttonLines page.buttons
    ++ linkLines page.links
    ++ contentLines page max_length

/-- `_build_snapshot` (server.py:505-588): join the parts, then cap the
whole digest (`result[:max_length] + "\n... (truncated)"` when over the
budget). -/
def _build_snapshot (page : PageModel) (max_length : Nat) : PyStr :=
  let result := List.intercalate (pystr "\n") (snapshotParts page max_length)
  if result.length > max_length then result.take max_length ++ TRUNCATION_MARKER
  else result

/-!
## Properties of the admission step
-/

theorem admitBatch_nil (st : CollectState) : admitBatch st [] = (st, 0) := rfl

theorem admitBatch_cons (st : CollectState) (t : Tweet) (rest : List Tweet) :
    admitBatch st (t :: rest) =
      if tweetKey t ∉ st.seen ∧ (tweetKey t).2 ≠ [] then
        ((admitBatch { st with seen := tweetKey t :: st.seen,
                               all_tweets := st.all_tweets ++ [t] } rest).1,
         (admitBatch { st with seen := tweetKey t :: st.seen,
                               all_tweets := st.all_tweets ++ [t] } rest).2 + 1)
      else admitBatch st rest := rfl

/-- Admitting a batch adds as many records as the `new` counter reports. -/
theorem admitBatch_len_all (b : List Tweet) : ∀ st : CollectState,
    (admitBatch st b).1.all_tweets.length = st.all_tweets.length + (admitBatch st b).2 := by
  induction b with
  | nil => intro st; rfl
  | cons t rest ih =>
      intro st
      rw [admitBatch_cons]
      split
      · simp only
        rw [ih]
        simp [List.length_append]
        omega
      · exact ih st

/-- Admitting a batch adds as many dedup keys as the `new` counter reports. -/
theorem admitBatch_len_seen (b : List Tweet) : ∀ st : CollectState,
    (admitBatch st b).1.seen.length = st.seen.length + (admitBatch st b).2 := by
  induction b with
  | nil => intro st; rfl
  | cons t rest ih =>
      intro st
      rw [admitBatch_cons]
      split
      · simp only
        rw [ih]
        simp
        omega
      · exact ih st

/-- `all_tweets` is append-only through a batch. -/
theorem admitBatch_append (b : List Tweet) : ∀ st : CollectState,
    ∃ d, (admitBatch st b).1.all_tweets = st.all_tweets ++ d := by
  induction b with
  | nil => intro st; exact ⟨[], by simp [admitBatch_nil]⟩
  | cons t rest ih =>
      intro st
      rw [admitBatch_cons]
      split
      · obtain ⟨d, hd⟩ := ih { st with seen := tweetKey t :: st.seen,
                                       all_tweets := st.all_tweets ++ [t] }
        exact ⟨t :: d, by simpa using hd⟩
      · exact ih st

/-- `seen` only grows through a batch. -/
theorem admitBatch_seen_mono (b : List Tweet) : ∀ (st : CollectState) (k : DedupKey),
    k ∈ st.seen → k ∈ (admitBatch st b).1.seen := by
  induction b with
  | nil => intro st k hk; exact hk
  | cons t rest ih =>
      intro st k hk
      rw [admitBatch_cons]
      split
      · exact ih _ k (List.mem_cons_of_mem _ hk)
      · exact ih st k hk

/-- After a batch is processed, every key of the batch with a non-empty
body component is in `seen`. -/
theorem admitBatch_key_seen (b : List Tweet) : ∀ (st : CollectState) (t : Tweet),
    t ∈ b → (tweetKey t).2 ≠ [] → tweetKey t ∈ (admitBatch st b).1.seen := by
  induction b with
  | nil => intro st t ht; exact absurd ht (List.not_mem_nil t)
  | cons u rest ih =>
      intro st t ht hbody
      rw [admitBatch_cons]
      rcases List.mem_cons.mp ht with rfl | htr
      · split
        · exact admitBatch_seen_mono rest _ _ (List.mem_cons_self _ _)
        · rename_i hcond
          have hseen : tweetKey t ∈ st.seen := by
            by_contra hns
            exact hcond ⟨hns, hbody⟩
          exact admitBatch_seen_mono rest st _ hseen
      · split
        · exact ih _ t htr hbody
        · exact ih st t htr hbody

/-- A batch none of whose admissible keys are new admits nothing and
leaves the state unchanged. -/
theorem admitBatch_stale (b : List Tweet) : ∀ st : CollectState,
    (∀ t ∈ b, tweetKey t ∈ st.seen ∨ (tweetKey t).2 = []) →
    admitBatch st b = (st, 0) := by
  induction b with
  | nil => intro st _; rfl
  | cons t rest ih =>
      intro st h
      rw [admitBatch_cons]
      have hcond : ¬(tweetKey t ∉ st.seen ∧ (tweetKey t).2 ≠ []) := by
        rcases h t (List.mem_cons_self _ _) with hs | he
        · exact fun hc => hc.1 hs
        · exact fun hc => hc.2 he
      rw [if_neg hcond]
      exact ih st (fun u hu => h u (List.mem_cons_of_mem _ hu))

/-- Any key present in `seen` after a batch was already there or has a
non-empty body component. -/
theorem admitBatch_seen_body (b : List Tweet) : ∀ (st : CollectState) (k : DedupKey),
    k ∈ (admitBatch st b).1.seen → k ∈ st.seen ∨ k.2 ≠ [] := by
  induction b with
  | nil => intro st k hk; exact Or.inl hk
  | cons t rest ih =>
      intro st k hk
      rw [admitBatch_cons] at hk
      split at hk
      · rename_i hcond
        rcases ih _ k hk with hik | hb
        · rcases List.mem_cons.mp hik with rfl | hik2
          · exact Or.inr hcond.2
          · exact Or.inl hik2
        · exact Or.inr hb
      · exact ih st k hk

/-- Any record present in `collected` after a batch was already there or
has a non-empty body component. -/
theorem admitBatch_tweets_body (b : List Tweet) : ∀ (st : CollectState) (u : Tweet),
    u ∈ (admitBatch st b).1.all_tweets → u ∈ st.all_tweets ∨ (tweetKey u).2 ≠ [] := by
  induction b with
  | nil => intro st u hu; exact Or.inl hu
  | cons t rest ih =>
      intro st u hu
      rw [admitBatch_cons] at hu
      split at hu
      · rename_i hcond
        rcases ih _ u hu with hiu | hb
        · rcases List.mem_append.mp hiu with hiu2 | hiu1
          · exact Or.inl hiu2
          · rcases List.mem_singleton.mp hiu1 with rfl
            exact Or.inr hcond.2
        · exact Or.inr hb
      · exact ih st u hu

/-- Admission preserves distinctness of the `seen` keys. -/
theorem admitBatch_nodup (b : List Tweet) : ∀ st : CollectState,
    st.seen.Nodup → (admitBatch st b).1.seen.Nodup := by
  induction b with
  | nil => intro st h; exact h
  | cons t rest ih =>
      intro st h
      rw [admitBatch_cons]
      split
      · rename_i hcond
        exact ih _ (List.nodup_cons.mpr ⟨hcond.1, h⟩)
      · exact ih st h

/-- **C3**: feeding the identical batch to the per-round
extraction-and-dedup step on two consecutive rounds yields zero newly
admitted records on the second round, leaves `collected` unchanged, and
the second round increments the stale counter by exactly 1. -/
theorem xsearch_dedup_idempotent (st : CollectState) (batch : List Tweet) :
    (roundStep (roundStep st batch).1 batch).2 = 0 ∧
    (roundStep (roundStep st batch).1 batch).1.all_tweets
      = (roundStep st batch).1.all_tweets ∧
    (roundStep (roundStep st batch).1 batch).1.stale
      = (roundStep st batch).1.stale + 1 := by
  set st1 := (roundStep st batch).1 with hst1
  have hkeys : ∀ t ∈ batch,
      tweetKey t ∈ ({ st1 with rnd := st1.rnd + 1 } : CollectState).seen
        ∨ (tweetKey t).2 = [] := by
    intro t ht
    by_cases hb : (tweetKey t).2 = []
    · exact Or.inr hb
    · left
      show tweetKey t ∈ st1.seen
      have hs : st1.seen = (admitBatch { st with rnd := st.rnd + 1 } batch).1.seen := by
        rw [hst1]; rfl
      rw [hs]
      exact admitBatch_key_seen batch _ t ht hb
  have h2 := admitBatch_stale batch { st1 with rnd := st1.rnd + 1 } hkeys
  refine ⟨?_, ?_, ?_⟩
  · show (roundStep st1 batch).2 = 0
    simp [roundStep, h2]
  · show (roundStep st1 batch).1.all_tweets = st1.all_tweets
    simp [roundStep, h2]
  · show (roundStep st1 batch).1.stale = st1.stale + 1
    simp [roundStep, h2]

/-- **C4**: a raw item whose body-text component (the first 120
characters of its body text) is empty is never added to `seen` and never
appended to `collected` by a harvester round, whatever its identity
field holds. -/
theorem xsearch_empty_body_never_admitted (st : CollectState) (batch : List Tweet)
    (t : Tweet) (hbody : (tweetKey t).2 = []) :
    (tweetKey t ∉ st.seen → tweetKey t ∉ (roundStep st batch).1.seen) ∧
    (t ∉ st.all_tweets → t ∉ (roundStep st batch).1.all_tweets) := by
  constructor
  · intro hns hmem
    have hm2 : tweetKey t ∈ (admitBatch { st with rnd := st.rnd + 1 } batch).1.seen := by
      simpa [roundStep] using hmem
    rcases admitBatch_seen_body batch _ _ hm2 with h1 | h2
    · exact hns h1
    · exact h2 hbody
  · intro hnt hmem
    have hm2 : t ∈ (admitBatch { st with rnd := st.rnd + 1 } batch).1.all_tweets := by
      simpa [roundStep] using hmem
    rcases admitBatch_tweets_body batch _ _ hm2 with h1 | h2
    · exact hnt h1
    · exact h2 hbody

/-- A raw item with a non-empty identity field but empty body text, fed
to a round from the initial state. -/
def emptyBodyTweet : Tweet := { username := some (pystr "@alice"), text := some [] }

theorem xsearch_empty_body_never_admitted_witness :
    (tweetKey emptyBodyTweet).2 = [] ∧
    tweetKey emptyBodyTweet ∉ (roundStep initState [emptyBodyTweet]).1.seen ∧
    emptyBodyTweet ∉ (roundStep initState [emptyBodyTweet]).1.all_tweets :=
  ⟨by decide,
   (xsearch_empty_body_never_admitted initState [emptyBodyTweet] emptyBodyTweet
      (by decide)).1 (by decide),
   (xsearch_empty_body_never_admitted initState [emptyBodyTweet] emptyBodyTweet
      (by decide)).2 (by decide)⟩

/-- **C5**: across all rounds `collected` is append-only (so its length
is non-decreasing), and at every round boundary its length equals the
number of admitted dedup keys in `seen`, which are pairwise distinct. -/
theorem xsearch_collected_monotone (ext : Nat → List Tweet) (n : Nat) :
    (∃ d, (runRounds ext (n + 1)).all_tweets = (runRounds ext n).all_tweets ++ d) ∧
    (runRounds ext n).all_tweets.length = (runRounds ext n).seen.length ∧
    (runRounds ext n).seen.Nodup := by
  refine ⟨?_, ?_⟩
  · obtain ⟨d, hd⟩ := admitBatch_append (ext (runRounds ext n).rnd)
      { runRounds ext n with rnd := (runRounds ext n).rnd + 1 }
    refine ⟨d, ?_⟩
    show (roundStep (runRounds ext n) (ext (runRounds ext n).rnd)).1.all_tweets = _
    simpa [roundStep] using hd
  · induction n with
    | zero => exact ⟨rfl, List.nodup_nil⟩
    | succ m ih =>
        obtain ⟨ihlen, ihnd⟩ := ih
        have hall :
            (runRounds ext (m + 1)).all_tweets
              = (admitBatch { runRounds ext m with rnd := (runRounds ext m).rnd + 1 }
                  (ext (runRounds ext m).rnd)).1.all_tweets := by
          simp [runRounds, roundStep]
        have hseen :
            (runRounds ext (m + 1)).seen
              = (admitBatch { runRounds ext m with rnd := (runRounds ext m).rnd + 1 }
                  (ext (runRounds ext m).rnd)).1.seen := by
          simp [runRounds, roundStep]
        constructor
        · rw [hall, hseen, admitBatch_len_all, admitBatch_len_seen]
          simpa using ihlen
        · rw [hseen]
          exact admitBatch_nodup _ _ ihnd

/-- The record sequence of the report-grouping example. -/
def exampleRecords : List Tweet :=
  [ { username := some (pystr "u1"), timestamp := some (pystr "2024-01-01") },
    { username := some (pystr "u1"), timestamp := some (pystr "2024-01-02") },
    { username := some (pystr "u2"), timestamp := some (pystr "2024-01-01") } ]

/-- **C6**: the report aggregation groups by author handle and by the
first 10 characters of the timestamp; on the example records it yields
author counts `u1 ↦ 2, u2 ↦ 1` and day counts
`2024-01-01 ↦ 2, 2024-01-02 ↦ 1`. -/
theorem xsearch_report_grouping :
    reportUsers exampleRecords = [(pystr "u1", 2), (pystr "u2", 1)] ∧
    reportDaily exampleRecords = [(pystr "2024-01-01", 2), (pystr "2024-01-02", 1)] := by
  decide

/-!
## The convergence behaviour of the collect loop
-/

theorem collectLoop_succ (ext : Nat → List Tweet) (target maxStale fuel : Nat)
    (st : CollectState) :
    collectLoop ext target maxStale (fuel + 1) st =
      if st.all_tweets.length < target ∧ st.stale < maxStale then
        if target ≤ (roundStep st (ext st.rnd)).1.all_tweets.length then
          some (roundStep st (ext st.rnd)).1
        else collectLoop ext target maxStale fuel (roundStep st (ext st.rnd)).1
      else some st := rfl

/-- One more iteration of the loop, entered and not broken by the target
check. -/
theorem collectLoop_continue (ext : Nat → List Tweet) (target maxStale fuel : Nat)
    (st st2 : CollectState) (hst2 : (roundStep st (ext st.rnd)).1 = st2)
    (h1 : st.all_tweets.length < target) (h2 : st.stale < maxStale)
    (h3 : ¬ target ≤ st2.all_tweets.length) :
    collectLoop ext target maxStale (fuel + 1) st =
      collectLoop ext target maxStale fuel st2 := by
  rw [collectLoop_succ, if_pos ⟨h1, h2⟩, hst2, if_neg h3]

/-- Loop exit: the `while` condition fails. -/
theorem collectLoop_exit (ext : Nat → List Tweet) (target maxStale fuel : Nat)
    (st : CollectState) (h : ¬(st.all_tweets.length < target ∧ st.stale < maxStale)) :
    collectLoop ext target maxStale (fuel + 1) st = some st := by
  rw [collectLoop_succ, if_neg h]

/-- **C2 amended**: with stale limit 3 and an extraction function always
returning the same single valid item, the harvest loop terminates (fuel
5 suffices) having admitted exactly 1 record, after exactly 3
consecutive stale rounds following the admitting round — for every
`target ≥ 2`.  (With `target ≤ 1` the target check ends the run before
any stale round; see the counterexample.) -/
theorem xsearch_convergence_termination (t : Tweet) (target : Nat)
    (hbody : pyGet t.text [] ≠ []) (htarget : 2 ≤ target) :
    collectLoop (fun _ => [t]) target 3 5 initState =
      some { all_tweets := [t], seen := [tweetKey t], stale := 3, rnd := 4 } := by
  have hk : (tweetKey t).2 ≠ [] := by
    show (pyGet t.text []).take 120 ≠ []
    intro hc
    rcases List.take_eq_nil_iff.mp hc with h | h
    · exact absurd h (by norm_num)
    · exact hbody h
  have h1 : roundStep initState [t] = (⟨[t], [tweetKey t], 0, 1⟩, 1) := by
    simp [roundStep, initState, admitBatch_cons, admitBatch_nil, hk]
  have h2 : ∀ s n : Nat, roundStep ⟨[t], [tweetKey t], s, n⟩ [t]
      = (⟨[t], [tweetKey t], s + 1, n + 1⟩, 0) := by
    intro s n
    simp [roundStep, admitBatch_cons, admitBatch_nil]
  have hn1 : ¬ target ≤ 1 := by omega
  calc collectLoop (fun _ => [t]) target 3 5 initState
      = collectLoop (fun _ => [t]) target 3 4 ⟨[t], [tweetKey t], 0, 1⟩ :=
        collectLoop_continue _ _ _ _ _ _
          (by show (roundStep initState [t]).1 = _; rw [h1])
          (by show 0 < target; omega) (by show 0 < 3; omega)
          (by show ¬ target ≤ 1; omega)
    _ = collectLoop (fun _ => [t]) target 3 3 ⟨[t], [tweetKey t], 1, 2⟩ :=
        collectLoop_continue _ _ _ _ _ _
          (by show (roundStep ⟨[t], [tweetKey t], 0, 1⟩ [t]).1 = _; rw [h2])
          (by show 1 < target; omega) (by show 0 < 3; omega)
          (by show ¬ target ≤ 1; omega)
    _ = collectLoop (fun _ => [t]) target 3 2 ⟨[t], [tweetKey t], 2, 3⟩ :=
        collectLoop_continue _ _ _ _ _ _
          (by show (roundStep ⟨[t], [tweetKey t], 1, 2⟩ [t]).1 = _; rw [h2])
          (by show 1 < target; omega) (by show 1 < 3; omega)
          (by show ¬ target ≤ 1; omega)
    _ = collectLoop (fun _ => [t]) target 3 1 ⟨[t], [tweetKey t], 3, 4⟩ :=
        collectLoop_continue _ _ _ _ _ _
          (by show (roundStep ⟨[t], [tweetKey t], 2, 3⟩ [t]).1 = _; rw [h2])
          (by show 1 < target; omega) (by show 2 < 3; omega)
          (by show ¬ target ≤ 1; omega)
    _ = some ⟨[t], [tweetKey t], 3, 4⟩ :=
        collectLoop_exit _ _ _ _ _ (by show ¬(1 < target ∧ 3 < 3); omega)

/-- The single valid item used to instantiate the convergence claims. -/
def singleItemTweet : Tweet :=
  { username := some (pystr "u"), text := some (pystr "hi") }

theorem xsearch_convergence_termination_witness :
    pyGet singleItemTweet.text [] ≠ [] ∧ 2 ≤ 2 ∧
    collectLoop (fun _ => [singleItemTweet]) 2 3 5 initState =
      some { all_tweets := [singleItemTweet], seen := [tweetKey singleItemTweet],
             stale := 3, rnd := 4 } :=
  ⟨by decide, by decide,
   xsearch_convergence_termination singleItemTweet 2 (by decide) (by decide)⟩

/-- **C2 as stated is false**: with `target = 1` and the same constant
single-item extraction and stale limit 3, the run ends right after the
admitting round with `stale = 0` (zero stale rounds), not after 3 stale
rounds — the behaviour is not independent of `target`. -/
theorem xsearch_convergence_termination_counterexample :
    (collectLoop (fun _ => [singleItemTweet]) 1 3 5 initState).map CollectState.stale
        = some 0 ∧
    (collectLoop (fun _ => [singleItemTweet]) 1 3 5 initState).map CollectState.stale
        ≠ some 3 ∧
    (collectLoop (fun _ => [singleItemTweet]) 1 3 5 initState).map CollectState.rnd
        = some 1 := by
  decide

/-- A round batch with two distinct valid items. -/
def pairBatch : List Tweet :=
  [ { username := some (pystr "a"), text := some (pystr "x") },
    { username := some (pystr "b"), text := some (pystr "y") } ]

/-- **C9**: the harvest can overshoot `target`: with `target = 1` and a
round delivering two distinct valid items, both are admitted before the
target check, so the returned collection has length 2 > 1. -/
theorem xsearch_target_overshoot :
    (collectLoop (fun _ => pairBatch) 1 MAX_STALE_ROUNDS 5 initState).map
        (fun st => st.all_tweets.length) = some 2 ∧ 1 < 2 := by
  decide

/-- **C8**: a round whose raw extraction returns malformed or non-JSON
output is treated as an empty item list: `extract_tweets` yields `[]`
(never raising), the round admits zero new records, and it feeds the
staleness counter, leaving the rest of the state untouched. -/
theorem xsearch_extraction_failure_recovered
    (loads : PyStr → Option (List Tweet)) (v : JsValue) (st : CollectState)
    (hfail : extractionFailure loads v) :
    extract_tweets loads v = [] ∧
    roundStep st (extract_tweets loads v)
      = ({ st with rnd := st.rnd + 1, stale := st.stale + 1 }, 0) := by
  have he : extract_tweets loads v = [] := by
    cases v with
    | str s =>
        show (match loads s with | some items => items | none => []) = []
        rw [show loads s = none from hfail]
    | list items => exact absurd hfail (fun h => h)
    | other => rfl
  refine ⟨he, ?_⟩
  rw [he]
  rfl

theorem xsearch_extraction_failure_recovered_witness :
    extractionFailure (fun _ => none) (JsValue.str (pystr "not json")) ∧
    extract_tweets (fun _ => none) (JsValue.str (pystr "not json")) = [] ∧
    roundStep initState (extract_tweets (fun _ => none) (JsValue.str (pystr "not json")))
      = ({ initState with rnd := initState.rnd + 1, stale := initState.stale + 1 }, 0) :=
  ⟨rfl,
   (xsearch_extraction_failure_recovered (fun _ => none)
      (JsValue.str (pystr "not json")) initState rfl).1,
   (xsearch_extraction_failure_recovered (fun _ => none)
      (JsValue.str (pystr "not json")) initState rfl).2⟩

/-!
## The Top Users ranking
-/

/-- The spec's "first-seen (input-order) position": keys listed in order
of first occurrence.  This definition follows the spec's words and is
compared against the counter the code builds. -/
def specFirstSeenOrder (ks : List PyStr) : List PyStr :=
  ks.foldl (fun acc k => if k ∈ acc then acc else acc ++ [k]) []

/-- A counter update keeps the key order, appending a key only when new. -/
theorem counterInc_map_fst (c : PyCounter) (k : PyStr) :
    (counterInc c k).map Prod.fst =
      if k ∈ c.map Prod.fst then c.map Prod.fst else c.map Prod.fst ++ [k] := by
  induction c with
  | nil => simp [counterInc]
  | cons e rest ih =>
      obtain ⟨k2, n⟩ := e
      by_cases h : k2 = k
      · subst h
        simp [counterInc]
      · by_cases hm : k ∈ rest.map Prod.fst
        · simp [counterInc, h, ih, hm, Ne.symm h]
        · simp [counterInc, h, ih, hm, Ne.symm h]

/-- The keys of the author counter, in order, are the author handles in
first-seen order. -/
theorem foldl_counterInc_fst (tweets : List Tweet) : ∀ c : PyCounter,
    ((tweets.foldl (fun c t => counterInc c (pyGet t.username (pystr "unknown"))) c).map
        Prod.fst) =
      ((tweets.map fun t => pyGet t.username (pystr "unknown")).foldl
        (fun acc k => if k ∈ acc then acc else acc ++ [k]) (c.map Prod.fst)) := by
  induction tweets with
  | nil => intro c; rfl
  | cons t rest ih =>
      intro c
      simp only [List.foldl_cons, List.map_cons]
      rw [ih, counterInc_map_fst]

/-- **C7**: the Top Users ranking is the 20-entry prefix of a stable
descending sort, by count, of the author counter: the sorted list is
descending in counts, a permutation of the counter, keeps tied entries
in their counter order, and the counter's key order is first-seen
(input) order of the author handles. -/
theorem xsearch_top_users_stable_ranking (tweets : List Tweet) :
    reportTopUsers tweets
        = (List.insertionSort countDesc (reportUsers tweets)).take 20 ∧
    List.Sorted countDesc (List.insertionSort countDesc (reportUsers tweets)) ∧
    (List.insertionSort countDesc (reportUsers tweets)).Perm (reportUsers tweets) ∧
    (∀ a b : PyStr × Nat, a.2 = b.2 →
        List.Sublist [a, b] (reportUsers tweets) →
        List.Sublist [a, b] (List.insertionSort countDesc (reportUsers tweets))) ∧
    (reportUsers tweets).map Prod.fst
        = specFirstSeenOrder (tweets.map fun t => pyGet t.username (pystr "unknown")) := by
  refine ⟨rfl, List.sorted_insertionSort countDesc _,
          List.perm_insertionSort countDesc _, ?_, ?_⟩
  · intro a b htie hsub
    exact List.pair_sublist_insertionSort (le_of_eq htie.symm) hsub
  · exact foldl_counterInc_fst tweets []

/-- Two authors with one record each: a tie in the ranking. -/
def tieRecords : List Tweet :=
  [ { username := some (pystr "a") }, { username := some (pystr "b") } ]

theorem xsearch_top_users_stable_ranking_witness :
    ((pystr "a", 1) : PyStr × Nat).2 = ((pystr "b", 1) : PyStr × Nat).2 ∧
    List.Sublist [(pystr "a", 1), (pystr "b", 1)] (reportUsers tieRecords) ∧
    List.Sublist [(pystr "a", 1), (pystr "b", 1)]
      (List.insertionSort countDesc (reportUsers tieRecords)) :=
  ⟨by decide, by decide,
   (xsearch_top_users_stable_ranking tieRecords).2.2.2.1 (pystr "a", 1) (pystr "b", 1)
     (by decide) (by decide)⟩

/-!
## Empty timestamps in the report
-/

/-- The per-day fold ignores exactly the records with empty timestamps. -/
theorem foldl_dailyStep_filter (l : List Tweet) : ∀ c : PyCounter,
    l.foldl dailyStep c
      = (l.filter fun u => pyGet u.timestamp [] ≠ []).foldl dailyStep c := by
  induction l with
  | nil => intro c; rfl
  | cons u rest ih =>
      intro c
      by_cases h : pyGet u.timestamp [] = []
      · have hd : dailyStep c u = c := by simp [dailyStep, h]
        simp only [List.foldl_cons, List.filter_cons]
        rw [if_neg (by simp [h]), hd]
        exact ih c
      · simp only [List.foldl_cons, List.filter_cons]
        rw [if_pos (by simp [h])]
        simp only [List.foldl_cons]
        exact ih (dailyStep c u)

/-- **C10**: a record with an empty timestamp still counts towards the
per-author tally but contributes nothing to the per-day tally, which is
computed only over records with a non-empty timestamp. -/
theorem xsearch_empty_timestamp_excluded (tweets : List Tweet) (t : Tweet)
    (hts : pyGet t.timestamp [] = []) :
    reportDaily (tweets ++ [t]) = reportDaily tweets ∧
    reportUsers (tweets ++ [t])
      = counterInc (reportUsers tweets) (pyGet t.username (pystr "unknown")) ∧
    reportDaily tweets
      = reportDaily (tweets.filter fun u => pyGet u.timestamp [] ≠ []) := by
  refine ⟨?_, ?_, ?_⟩
  · show (tweets ++ [t]).foldl dailyStep [] = reportDaily tweets
    rw [List.foldl_append]
    show dailyStep (reportDaily tweets) t = reportDaily tweets
    simp [dailyStep, hts]
  · show (tweets ++ [t]).foldl
        (fun c u => counterInc c (pyGet u.username (pystr "unknown"))) [] = _
    rw [List.foldl_append]
    rfl
  · exact foldl_dailyStep_filter tweets []

/-- A record with an author but an empty timestamp. -/
def noTimestampTweet : Tweet :=
  { username := some (pystr "c"), timestamp := some [] }

theorem xsearch_empty_timestamp_excluded_witness :
    pyGet noTimestampTweet.timestamp [] = [] ∧
    reportDaily (exampleRecords ++ [noTimestampTweet]) = reportDaily exampleRecords ∧
    reportUsers (exampleRecords ++ [noTimestampTweet])
      = counterInc (reportUsers exampleRecords) (pyGet noTimestampTweet.username (pystr "unknown")) :=
  ⟨by decide,
   (xsearch_empty_timestamp_excluded exampleRecords noTimestampTweet (by decide)).1,
   (xsearch_empty_timestamp_excluded exampleRecords noTimestampTweet (by decide)).2.1⟩

/-!
## The digest budget
-/

/-- A document whose digest exceeds the budget: a 200-character title
with budget 100. -/
def longTitlePage : PageModel :=
  { title := List.replicate 200 'x', url := [],
    headings := [], nav_links := [], inputs := [], buttons := [], links := [],
    mainRegion := none, body := none, labelFor := fun _ => none }

set_option maxRecDepth 8000 in
/-- **C1 as stated is false**: `_build_snapshot` cuts to the budget and
then appends the 16-character marker, so a truncated digest has length
`budget + 16 > budget`; likewise a truncated main-content block reaches
`budget / 2 + 16 > budget / 2`. -/
theorem server_digest_budget_counterexample :
    (_build_snapshot longTitlePage 100).length = 116 ∧
    ¬ ((_build_snapshot longTitlePage 100).length ≤ 100) ∧
    ¬ ((contentBlock (List.replicate 60 'x') 100).length ≤ 100 / 2) := by
  decide

/-- **C1 amended**: for any document and budget ≥ 100 the digest length
is at most `budget + 16` (16 = length of `"\n... (truncated)"`), a
truncated digest ends with the visible marker `"... (truncated)"`, and
the main-content block is capped at `budget / 2 + 16` characters before
assembly, likewise ending with the marker when truncated. -/
theorem server_digest_budget (page : PageModel) (budget : Nat) (hb : 100 ≤ budget) :
    (_build_snapshot page budget).length ≤ budget + TRUNCATION_MARKER.length ∧
    ((List.intercalate (pystr "\n") (snapshotParts page budget)).length > budget →
      ∃ p, _build_snapshot page budget = p ++ pystr "... (truncated)") ∧
    ∀ text : PyStr,
      (contentBlock text budget).length ≤ budget / 2 + TRUNCATION_MARKER.length ∧
      (text.length > budget / 2 →
        ∃ p, contentBlock text budget = p ++ pystr "... (truncated)") := by
  have hbuild : _build_snapshot page budget =
      if (List.intercalate (pystr "\n") (snapshotParts page budget)).length > budget then
        (List.intercalate (pystr "\n") (snapshotParts page budget)).take budget
          ++ TRUNCATION_MARKER
      else List.intercalate (pystr "\n") (snapshotParts page budget) := rfl
  have hmark : TRUNCATION_MARKER = '\n' :: pystr "... (truncated)" := rfl
  refine ⟨?_, ?_, ?_⟩
  · rw [hbuild]
    by_cases h : (List.intercalate (pystr "\n") (snapshotParts page budget)).length > budget
    · rw [if_pos h, List.length_append, List.length_take]
      omega
    · rw [if_neg h]
      omega
  · intro h
    rw [hbuild, if_pos h, hmark]
    refine ⟨(List.intercalate (pystr "\n") (snapshotParts page budget)).take budget
        ++ ['\n'], ?_⟩
    rw [List.append_assoc]
    rfl
  · intro text
    constructor
    · show (if text.length > budget / 2 then text.take (budget / 2) ++ TRUNCATION_MARKER
          else text).length ≤ _
      by_cases h : text.length > budget / 2
      · rw [if_pos h, List.length_append, List.length_take]
        omega
      · rw [if_neg h]
        omega
    · intro h
      refine ⟨text.take (budget / 2) ++ ['\n'], ?_⟩
      show (if text.length > budget / 2 then text.take (budget / 2) ++ TRUNCATION_MARKER
          else text) = _
      rw [if_pos h, hmark, List.append_assoc]
      rfl

theorem server_digest_budget_witness :
    100 ≤ 100 ∧
    (_build_snapshot longTitlePage 100).length ≤ 100 + TRUNCATION_MARKER.length :=
  ⟨by decide, (server_digest_budget longTitlePage 100 (by decide)).1⟩
